import Mathlib

/-!
Formal model of the AQI computation core of `src/app.py`.

Numeric values are modelled as exact rationals (`ℚ`); Python's built-in
`round` (round-half-to-even on the result of the linear interpolation) is
modelled by `roundHalfEven`.  Timestamps are modelled as naturals ordered
as the UTC datetimes are.  The pandas pipeline
`sort_values('datetime_utc').groupby('parameter').last()` of
`update_info_panel` is modelled, per parameter, as: sort the readings by
timestamp and take the last row whose parameter matches.
-/

namespace Air

/-- Python's `round` on an exact value: round to the nearest integer,
ties going to the even integer. -/
def roundHalfEven (x : ℚ) : ℤ :=
  let f := ⌊x⌋
  let r := x - f
  if r < 1/2 then f
  else if 1/2 < r then f + 1
  else if f % 2 = 0 then f else f + 1

/-- One breakpoint band `(Clow, Chigh, Ilow, Ihigh)` of `calculate_aqi_subindex`. -/
structure Bkpt where
  cLow : ℚ
  cHigh : ℚ
  iLow : ℤ
  iHigh : ℤ
deriving DecidableEq

/-- The interpolation `round(((Ihigh - Ilow) / (Chigh - Clow)) * (value - Clow) + Ilow)`
performed on the matching band (src/app.py lines 128 and 132). -/
def interp (b : Bkpt) (v : ℚ) : ℤ :=
  roundHalfEven ((((b.iHigh : ℚ) - (b.iLow : ℚ)) / (b.cHigh - b.cLow)) * (v - b.cLow) + (b.iLow : ℚ))

/-- The band scan of `calculate_aqi_subindex` (lines 125-133): every band but
the last matches when `Clow <= value < Chigh`; the last band matches when
`Clow <= value <= Chigh`; `none` when no band matches. -/
def scanBands : List Bkpt → ℚ → Option ℤ
  | [], _ => none
  | [b], v => if b.cLow ≤ v ∧ v ≤ b.cHigh then some (interp b v) else none
  | b :: rest, v => if b.cLow ≤ v ∧ v < b.cHigh then some (interp b v) else scanBands rest v

/-- The `"PM2.5"` breakpoint table (lines 63-71). -/
def pm25Table : List Bkpt :=
  [⟨0, 12, 0, 50⟩, ⟨12.1, 35.4, 51, 100⟩, ⟨35.5, 55.4, 101, 150⟩, ⟨55.5, 150.4, 151, 200⟩,
   ⟨150.5, 250.4, 201, 300⟩, ⟨250.5, 350.4, 301, 400⟩, ⟨350.5, 500.4, 401, 500⟩]

/-- The `"PM10"` breakpoint table (lines 72-80). -/
def pm10Table : List Bkpt :=
  [⟨0, 54, 0, 50⟩, ⟨55, 154, 51, 100⟩, ⟨155, 254, 101, 150⟩, ⟨255, 354, 151, 200⟩,
   ⟨355, 424, 201, 300⟩, ⟨425, 504, 301, 400⟩, ⟨505, 604, 401, 500⟩]

/-- The `"CO"` breakpoint table (lines 81-89). -/
def coTable : List Bkpt :=
  [⟨0, 4.4, 0, 50⟩, ⟨4.5, 9.4, 51, 100⟩, ⟨9.5, 12.4, 101, 150⟩, ⟨12.5, 15.4, 151, 200⟩,
   ⟨15.5, 30.4, 201, 300⟩, ⟨30.5, 40.4, 301, 400⟩, ⟨40.5, 50.4, 401, 500⟩]

/-- The `"O3"` breakpoint table (lines 90-96). -/
def o3Table : List Bkpt :=
  [⟨0, 54, 0, 50⟩, ⟨55, 70, 51, 100⟩, ⟨71, 85, 101, 150⟩, ⟨86, 105, 151, 200⟩,
   ⟨106, 200, 201, 300⟩]

/-- The `"NO2"` breakpoint table (lines 97-105). -/
def no2Table : List Bkpt :=
  [⟨0, 53, 0, 50⟩, ⟨54, 100, 51, 100⟩, ⟨101, 360, 101, 150⟩, ⟨361, 649, 151, 200⟩,
   ⟨650, 1249, 201, 300⟩, ⟨1250, 1649, 301, 400⟩, ⟨1650, 2049, 401, 500⟩]

/-- The `"SO2"` breakpoint table (lines 106-114). -/
def so2Table : List Bkpt :=
  [⟨0, 35, 0, 50⟩, ⟨36, 75, 51, 100⟩, ⟨76, 185, 101, 150⟩, ⟨186, 304, 151, 200⟩,
   ⟨305, 604, 201, 300⟩, ⟨605, 804, 301, 400⟩, ⟨805, 1004, 401, 500⟩]

/-- The `breakpoints` dictionary of `calculate_aqi_subindex` (lines 62-115):
`none` models `parameter not in breakpoints`. -/
def breakpoints (parameter : String) : Option (List Bkpt) :=
  if parameter = "PM2.5" then some pm25Table
  else if parameter = "PM10" then some pm10Table
  else if parameter = "CO" then some coTable
  else if parameter = "O3" then some o3Table
  else if parameter = "NO2" then some no2Table
  else if parameter = "SO2" then some so2Table
  else none

/-- The unit normalization applied before the table scan (lines 117-120):
CO values are divided by 1000, O3 values by 2, everything else passes through. -/
def normalizedValue (parameter : String) (value : ℚ) : ℚ :=
  let v := if parameter = "CO" then value / 1000 else value
  if parameter = "O3" then v / 2 else v

/-- `breakpoints[parameter][-1][3]` (line 135): the index-high of the last
band of a table. -/
def lastIndexHigh (bks : List Bkpt) : ℤ :=
  match bks.getLast? with
  | some b => b.iHigh
  | none => 0

/-- The scan-then-clamp body of `calculate_aqi_subindex` for one table
(lines 125-135): the interpolated sub-index of the matching band, or the
last band's index-high when no band matched. -/
def tableSubindex (bks : List Bkpt) (v : ℚ) : ℤ :=
  match scanBands bks v with
  | some s => s
  | none => lastIndexHigh bks

/-- `calculate_aqi_subindex(value, parameter)` (lines 61-135): normalize,
return 0 when the parameter has no breakpoint table, otherwise scan the
bands and fall back to the last band's index-high when no band matched. -/
def calculate_aqi_subindex (value : ℚ) (parameter : String) : ℤ :=
  match breakpoints parameter with
  | none => 0
  | some bks => tableSubindex bks (normalizedValue parameter value)

/-- `get_aqi_category(aqi_value)` (lines 137-149): the category label and its
fixed description string. -/
def get_aqi_category (aqi_value : ℤ) : String × String :=
  if aqi_value ≤ 50 then
    ("Good", "The air is fresh and free from toxins. Enjoy outdoor activities without any health concerns.")
  else if 51 ≤ aqi_value ∧ aqi_value ≤ 100 then
    ("Moderate", "Air quality is acceptable for most, but sensitive individuals might experience mild discomfort.")
  else if 101 ≤ aqi_value ∧ aqi_value ≤ 150 then
    ("Poor", "Breathing may become slightly uncomfortable, especially for those with respiratory issues.")
  else if 151 ≤ aqi_value ∧ aqi_value ≤ 200 then
    ("Unhealthy", "This air quality is particularly risky for children, pregnant women, and the elderly. Limit outdoor activities.")
  else if 201 ≤ aqi_value ∧ aqi_value ≤ 300 then
    ("Severe", "Prolonged exposure can cause chronic health issues or organ damage. Avoid outdoor activities.")
  else
    ("Hazardous", "Dangerously high pollution levels. Life-threatening health risks with prolonged exposure. Stay indoors and take precautions.")

/-- One row of the per-location reading DataFrame, restricted to the columns
the AQI core reads: `parameter`, `value` and `datetime_utc`. -/
structure Reading where
  parameter : String
  value : ℚ
  datetime_utc : ℕ
deriving DecidableEq

/-- The ordering key of `sort_values('datetime_utc')` (line 580). -/
def timeLe (a b : Reading) : Prop :=
  a.datetime_utc ≤ b.datetime_utc

instance : DecidableRel timeLe :=
  fun a b => Nat.decLe a.datetime_utc b.datetime_utc

instance : IsTotal Reading timeLe :=
  ⟨fun a b => Nat.le_total a.datetime_utc b.datetime_utc⟩

instance : IsTrans Reading timeLe :=
  ⟨fun _ _ _ => Nat.le_trans⟩

/-- The ascending sort `location_data.sort_values('datetime_utc')` (line 580). -/
def sortByTime (rs : List Reading) : List Reading :=
  rs.insertionSort timeLe

/-- `sort_values('datetime_utc').groupby('parameter').last()` viewed per
parameter: the last reading, in timestamp-sorted order, whose parameter is `p`
(`none` when the parameter has no reading at all). -/
def aggregate (rs : List Reading) (p : String) : Option Reading :=
  ((sortByTime rs).filter (fun r => r.parameter == p)).getLast?

/-- The `aqi_subindex` column of `latest_data` (lines 583-585): the sub-index
of each aggregated row. -/
def subindices (rows : List Reading) : List ℤ :=
  rows.map (fun r => calculate_aqi_subindex r.value r.parameter)

/-- `current_aqi = latest_data['aqi_subindex'].max()` (line 586); `none`
models the empty-data path taken before this line. -/
def overall_aqi (rows : List Reading) : Option ℤ :=
  (subindices rows).max?

/-- The resolver (lines 586-587): overall AQI together with its category
label and description; `none` is the "No Data" path (line 506). -/
def resolve (rows : List Reading) : Option (ℤ × String × String) :=
  match overall_aqi rows with
  | none => none
  | some m => some (m, get_aqi_category m)

/-- The value matches no band of the list under the scan conditions of
lines 125-133: strictly below the upper bound for every band but the last,
inclusively for the last. -/
def outsideAllBands : List Bkpt → ℚ → Prop
  | [], _ => True
  | [b], v => ¬(b.cLow ≤ v ∧ v ≤ b.cHigh)
  | b :: rest, v => ¬(b.cLow ≤ v ∧ v < b.cHigh) ∧ outsideAllBands rest v

/-- Structural well-formedness of a breakpoint table, with `M` an upper
bound for every index-high. -/
def goodTable (M : ℤ) (bks : List Bkpt) : Prop :=
  ∀ b ∈ bks, b.cLow < b.cHigh ∧ 0 ≤ b.iLow ∧ b.iLow ≤ b.iHigh ∧ b.iHigh ≤ M

instance : Std.Antisymm (fun x1 x2 : ℤ => x1 ≤ x2) :=
  ⟨fun h h' => le_antisymm h h'⟩

/-- The guard of the branch of `get_aqi_category` labelled `label`, read as a
standalone predicate (the final `else` reaches integers above 300). -/
def categoryMatches (v : ℤ) (label : String) : Prop :=
  (label = "Good" ∧ v ≤ 50) ∨
  (label = "Moderate" ∧ 51 ≤ v ∧ v ≤ 100) ∨
  (label = "Poor" ∧ 101 ≤ v ∧ v ≤ 150) ∨
  (label = "Unhealthy" ∧ 151 ≤ v ∧ v ≤ 200) ∨
  (label = "Severe" ∧ 201 ≤ v ∧ v ≤ 300) ∨
  (label = "Hazardous" ∧ 301 ≤ v)

end Air

namespace Air

lemma floor_le_roundHalfEven (x : ℚ) : ⌊x⌋ ≤ roundHalfEven x := by
  simp only [roundHalfEven]
  split_ifs <;> omega

lemma le_roundHalfEven (n : ℤ) (x : ℚ) (h : (n : ℚ) ≤ x) : n ≤ roundHalfEven x :=
  le_trans (Int.le_floor.mpr h) (floor_le_roundHalfEven x)

lemma roundHalfEven_le (n : ℤ) (x : ℚ) (h : x ≤ (n : ℚ)) : roundHalfEven x ≤ n := by
  have hf : ⌊x⌋ ≤ n := by
    have hle := Int.floor_le_floor h
    simpa using hle
  have hfl : (⌊x⌋ : ℚ) ≤ x := Int.floor_le x
  simp only [roundHalfEven]
  split_ifs with h1 h2 h3
  · exact hf
  · have hx : (⌊x⌋ : ℚ) + 1/2 < x := by linarith
    have hq : (⌊x⌋ : ℚ) < (n : ℚ) := by linarith
    have hz : ⌊x⌋ < n := by exact_mod_cast hq
    omega
  · exact hf
  · have hx : (⌊x⌋ : ℚ) + 1/2 ≤ x := by push_neg at h1; linarith
    have hq : (⌊x⌋ : ℚ) < (n : ℚ) := by linarith
    have hz : ⌊x⌋ < n := by exact_mod_cast hq
    omega

lemma interp_bounds (b : Bkpt) (v : ℚ) (hc : b.cLow < b.cHigh) (hi : b.iLow ≤ b.iHigh)
    (h1 : b.cLow ≤ v) (h2 : v ≤ b.cHigh) :
    b.iLow ≤ interp b v ∧ interp b v ≤ b.iHigh := by
  have hcne : b.cHigh - b.cLow ≠ 0 := by linarith
  have hiq : (b.iLow : ℚ) ≤ (b.iHigh : ℚ) := by exact_mod_cast hi
  have hslope : 0 ≤ ((b.iHigh : ℚ) - (b.iLow : ℚ)) / (b.cHigh - b.cLow) :=
    div_nonneg (by linarith) (by linarith)
  have hlow : (b.iLow : ℚ) ≤
      (((b.iHigh : ℚ) - (b.iLow : ℚ)) / (b.cHigh - b.cLow)) * (v - b.cLow) + (b.iLow : ℚ) := by
    nlinarith [mul_nonneg hslope (by linarith : (0:ℚ) ≤ v - b.cLow)]
  have hm : (((b.iHigh : ℚ) - (b.iLow : ℚ)) / (b.cHigh - b.cLow)) * (v - b.cLow)
      ≤ (((b.iHigh : ℚ) - (b.iLow : ℚ)) / (b.cHigh - b.cLow)) * (b.cHigh - b.cLow) :=
    mul_le_mul_of_nonneg_left (by linarith) hslope
  rw [div_mul_cancel₀ _ hcne] at hm
  have hhigh : (((b.iHigh : ℚ) - (b.iLow : ℚ)) / (b.cHigh - b.cLow)) * (v - b.cLow) + (b.iLow : ℚ)
      ≤ (b.iHigh : ℚ) := by linarith
  exact ⟨le_roundHalfEven _ _ hlow, roundHalfEven_le _ _ hhigh⟩

lemma goodTable_mono {M M' : ℤ} (h : M ≤ M') {bks : List Bkpt} (hg : goodTable M bks) :
    goodTable M' bks := by
  intro b hb
  obtain ⟨h1, h2, h3, h4⟩ := hg b hb
  exact ⟨h1, h2, h3, by omega⟩

lemma scanBands_bounds (M : ℤ) (bks : List Bkpt) (v : ℚ) :
    goodTable M bks → ∀ s : ℤ, scanBands bks v = some s → 0 ≤ s ∧ s ≤ M := by
  induction bks with
  | nil => intro _ s h; simp [scanBands] at h
  | cons b rest ih =>
    intro hg s h
    cases rest with
    | nil =>
      simp only [scanBands] at h
      by_cases hin : b.cLow ≤ v ∧ v ≤ b.cHigh
      · rw [if_pos hin] at h
        obtain ⟨hc, hi0, hi, hM⟩ := hg b (List.mem_cons_self b [])
        obtain ⟨hl, hh⟩ := interp_bounds b v hc hi hin.1 hin.2
        have hs : s = interp b v := by injection h with h; omega
        subst hs
        exact ⟨by omega, by omega⟩
      · rw [if_neg hin] at h
        simp at h
    | cons c rest =>
      simp only [scanBands] at h
      by_cases hin : b.cLow ≤ v ∧ v < b.cHigh
      · rw [if_pos hin] at h
        obtain ⟨hc, hi0, hi, hM⟩ := hg b (List.mem_cons_self b (c :: rest))
        obtain ⟨hl, hh⟩ := interp_bounds b v hc hi hin.1 (le_of_lt hin.2)
        have hs : s = interp b v := by injection h with h; omega
        subst hs
        exact ⟨by omega, by omega⟩
      · rw [if_neg hin] at h
        exact ih (fun x hx => hg x (List.mem_cons_of_mem b hx)) s h

lemma lastIndexHigh_bounds (M : ℤ) (bks : List Bkpt) (hM : 0 ≤ M) (hg : goodTable M bks) :
    0 ≤ lastIndexHigh bks ∧ lastIndexHigh bks ≤ M := by
  cases hl : bks.getLast? with
  | none => simp only [lastIndexHigh, hl]; exact ⟨le_refl 0, hM⟩
  | some b =>
    have hb : b ∈ bks := List.mem_of_mem_getLast? hl
    obtain ⟨_, h1, h2, h3⟩ := hg b hb
    simp only [lastIndexHigh, hl]
    exact ⟨by omega, h3⟩

lemma tableSubindex_bounds (M : ℤ) (bks : List Bkpt) (hM : 0 ≤ M) (hg : goodTable M bks)
    (v : ℚ) : 0 ≤ tableSubindex bks v ∧ tableSubindex bks v ≤ M := by
  unfold tableSubindex
  cases hs : scanBands bks v with
  | none => exact lastIndexHigh_bounds M bks hM hg
  | some s => exact scanBands_bounds M bks v hg s hs

end Air

namespace Air

lemma breakpoints_pm25 : breakpoints "PM2.5" = some pm25Table := rfl

lemma breakpoints_pm10 : breakpoints "PM10" = some pm10Table := rfl

lemma breakpoints_co : breakpoints "CO" = some coTable := rfl

lemma breakpoints_o3 : breakpoints "O3" = some o3Table := rfl

lemma breakpoints_no2 : breakpoints "NO2" = some no2Table := rfl

lemma breakpoints_so2 : breakpoints "SO2" = some so2Table := rfl

lemma goodTable_pm25 : goodTable 500 pm25Table := by
  simp only [goodTable, pm25Table, List.mem_cons, List.not_mem_nil, or_false]
  rintro b (rfl | rfl | rfl | rfl | rfl | rfl | rfl) <;> norm_num

lemma goodTable_pm10 : goodTable 500 pm10Table := by
  simp only [goodTable, pm10Table, List.mem_cons, List.not_mem_nil, or_false]
  rintro b (rfl | rfl | rfl | rfl | rfl | rfl | rfl) <;> norm_num

lemma goodTable_co : goodTable 500 coTable := by
  simp only [goodTable, coTable, List.mem_cons, List.not_mem_nil, or_false]
  rintro b (rfl | rfl | rfl | rfl | rfl | rfl | rfl) <;> norm_num

lemma goodTable_o3 : goodTable 300 o3Table := by
  simp only [goodTable, o3Table, List.mem_cons, List.not_mem_nil, or_false]
  rintro b (rfl | rfl | rfl | rfl | rfl) <;> norm_num

lemma goodTable_no2 : goodTable 500 no2Table := by
  simp only [goodTable, no2Table, List.mem_cons, List.not_mem_nil, or_false]
  rintro b (rfl | rfl | rfl | rfl | rfl | rfl | rfl) <;> norm_num

lemma goodTable_so2 : goodTable 500 so2Table := by
  simp only [goodTable, so2Table, List.mem_cons, List.not_mem_nil, or_false]
  rintro b (rfl | rfl | rfl | rfl | rfl | rfl | rfl) <;> norm_num

lemma subindex_no_table (v : ℚ) (p : String) (h : breakpoints p = none) :
    calculate_aqi_subindex v p = 0 := by
  unfold calculate_aqi_subindex
  rw [h]

lemma subindex_table (v : ℚ) (p : String) (bks : List Bkpt) (h : breakpoints p = some bks) :
    calculate_aqi_subindex v p = tableSubindex bks (normalizedValue p v) := by
  unfold calculate_aqi_subindex
  rw [h]

lemma subindex_bounds (v : ℚ) (p : String) :
    0 ≤ calculate_aqi_subindex v p ∧ calculate_aqi_subindex v p ≤ 500 := by
  by_cases h1 : p = "PM2.5"
  · subst h1; rw [subindex_table _ _ _ breakpoints_pm25]
    exact tableSubindex_bounds 500 pm25Table (by norm_num) goodTable_pm25 _
  by_cases h2 : p = "PM10"
  · subst h2; rw [subindex_table _ _ _ breakpoints_pm10]
    exact tableSubindex_bounds 500 pm10Table (by norm_num) goodTable_pm10 _
  by_cases h3 : p = "CO"
  · subst h3; rw [subindex_table _ _ _ breakpoints_co]
    exact tableSubindex_bounds 500 coTable (by norm_num) goodTable_co _
  by_cases h4 : p = "O3"
  · subst h4; rw [subindex_table _ _ _ breakpoints_o3]
    exact tableSubindex_bounds 500 o3Table (by norm_num) (goodTable_mono (by norm_num) goodTable_o3) _
  by_cases h5 : p = "NO2"
  · subst h5; rw [subindex_table _ _ _ breakpoints_no2]
    exact tableSubindex_bounds 500 no2Table (by norm_num) goodTable_no2 _
  by_cases h6 : p = "SO2"
  · subst h6; rw [subindex_table _ _ _ breakpoints_so2]
    exact tableSubindex_bounds 500 so2Table (by norm_num) goodTable_so2 _
  have hnone : breakpoints p = none := by
    unfold breakpoints
    rw [if_neg h1, if_neg h2, if_neg h3, if_neg h4, if_neg h5, if_neg h6]
  rw [subindex_no_table _ _ hnone]
  norm_num

lemma subindex_nonneg (v : ℚ) (p : String) : 0 ≤ calculate_aqi_subindex v p :=
  (subindex_bounds v p).1

lemma subindex_o3_le (v : ℚ) : calculate_aqi_subindex v "O3" ≤ 300 := by
  rw [subindex_table _ _ _ breakpoints_o3]
  exact (tableSubindex_bounds 300 o3Table (by norm_num) goodTable_o3 _).2

end Air

namespace Air

lemma normalized_pm25 (v : ℚ) : normalizedValue "PM2.5" v = v := rfl

lemma normalized_no2 (v : ℚ) : normalizedValue "NO2" v = v := rfl

lemma normalized_co (v : ℚ) : normalizedValue "CO" v = v / 1000 := rfl

lemma normalized_o3 (v : ℚ) : normalizedValue "O3" v = v / 2 := rfl

lemma calc_pm25_26 : calculate_aqi_subindex 26 "PM2.5" = 80 := by
  rw [subindex_table _ _ _ breakpoints_pm25, normalized_pm25]
  simp only [tableSubindex, pm25Table, scanBands, interp, roundHalfEven]
  norm_num

lemma calc_no2_42 : calculate_aqi_subindex 42 "NO2" = 40 := by
  rw [subindex_table _ _ _ breakpoints_no2, normalized_no2]
  simp only [tableSubindex, no2Table, scanBands, interp, roundHalfEven]
  norm_num

lemma calc_o3_1698 : calculate_aqi_subindex 169.8 "O3" = 150 := by
  rw [subindex_table _ _ _ breakpoints_o3, normalized_o3]
  simp only [tableSubindex, o3Table, scanBands, interp, roundHalfEven]
  norm_num

lemma calc_pm25_12 : calculate_aqi_subindex 12 "PM2.5" = 500 := by
  rw [subindex_table _ _ _ breakpoints_pm25, normalized_pm25]
  simp only [tableSubindex, lastIndexHigh, pm25Table, scanBands, interp, roundHalfEven]
  norm_num

lemma calc_pm25_121 : calculate_aqi_subindex 12.1 "PM2.5" = 51 := by
  rw [subindex_table _ _ _ breakpoints_pm25, normalized_pm25]
  simp only [tableSubindex, pm25Table, scanBands, interp, roundHalfEven]
  norm_num

lemma calc_co_4400 : calculate_aqi_subindex 4400 "CO" = 500 := by
  rw [subindex_table _ _ _ breakpoints_co, normalized_co]
  simp only [tableSubindex, lastIndexHigh, coTable, scanBands, interp, roundHalfEven]
  norm_num

end Air

namespace Air

lemma int_max?_eq_some_iff {xs : List ℤ} {a : ℤ} :
    xs.max? = some a ↔ a ∈ xs ∧ ∀ b ∈ xs, b ≤ a :=
  List.max?_eq_some_iff (fun a : ℤ => le_refl a) (fun a b => max_choice a b)
    (fun _ _ _ => max_le_iff)

lemma scanBands_eq_none_of_outside (v : ℚ) :
    ∀ bks : List Bkpt, outsideAllBands bks v → scanBands bks v = none := by
  intro bks
  induction bks with
  | nil => intro _; rfl
  | cons b rest ih =>
    intro hout
    cases rest with
    | nil =>
      simp only [outsideAllBands] at hout
      simp only [scanBands, if_neg hout]
    | cons c rest =>
      simp only [outsideAllBands] at hout
      simp only [scanBands, if_neg hout.1]
      exact ih hout.2

lemma scanBands_eq_none_of_neg (v : ℚ) (hv : v < 0) :
    ∀ bks : List Bkpt, (∀ b ∈ bks, 0 ≤ b.cLow) → scanBands bks v = none := by
  intro bks
  induction bks with
  | nil => intro _; rfl
  | cons b rest ih =>
    intro hlow
    have hb : 0 ≤ b.cLow := hlow b (List.mem_cons_self b rest)
    have hnb : ¬ b.cLow ≤ v := by linarith
    cases rest with
    | nil => simp only [scanBands]; rw [if_neg (by tauto)]
    | cons c rest =>
      simp only [scanBands]; rw [if_neg (by tauto)]
      exact ih (fun x hx => hlow x (List.mem_cons_of_mem b hx))

lemma scanBands_eq_none_of_gt (v : ℚ) (C : ℚ) (hv : C < v) :
    ∀ bks : List Bkpt, (∀ b ∈ bks, b.cHigh ≤ C) → scanBands bks v = none := by
  intro bks
  induction bks with
  | nil => intro _; rfl
  | cons b rest ih =>
    intro hhigh
    have hb : b.cHigh ≤ C := hhigh b (List.mem_cons_self b rest)
    cases rest with
    | nil =>
      have hnb : ¬ v ≤ b.cHigh := by linarith
      simp only [scanBands]; rw [if_neg (by tauto)]
    | cons c rest =>
      have hnb : ¬ v < b.cHigh := by linarith
      simp only [scanBands]; rw [if_neg (by tauto)]
      exact ih (fun x hx => hhigh x (List.mem_cons_of_mem b hx))

lemma subindex_fallback (v : ℚ) (p : String) (bks : List Bkpt) (b : Bkpt)
    (hp : breakpoints p = some bks)
    (hscan : scanBands bks (normalizedValue p v) = none)
    (hlast : bks.getLast? = some b) :
    calculate_aqi_subindex v p = b.iHigh := by
  rw [subindex_table _ _ _ hp]
  simp only [tableSubindex, hscan, lastIndexHigh, hlast]

lemma aggregate_eq_sorted_filter_getLast (rs : List Reading) (p : String) :
    aggregate rs p = ((sortByTime rs).filter (fun r => r.parameter == p)).getLast? := rfl

end Air

namespace Air

/-- Both lists of a permutation between two-element lists pair up in one of
the two possible ways. -/
lemma perm_pair_cases {α : Type} {a b x y : α} (h : ([a, b] : List α).Perm [x, y]) :
    (a = x ∧ b = y) ∨ (a = y ∧ b = x) := by
  have ha : a ∈ [x, y] := h.subset (List.mem_cons_self a [b])
  rcases List.mem_pair.mp ha with h1 | h1
  · left
    refine ⟨h1, ?_⟩
    rw [h1] at h
    have h3 := List.perm_singleton.mp h.cons_inv
    simpa using h3
  · right
    refine ⟨h1, ?_⟩
    rw [h1] at h
    have h4 : ([y, b] : List α).Perm [y, x] := h.trans (List.Perm.swap y x [])
    have h3 := List.perm_singleton.mp h4.cons_inv
    simpa using h3

/-- C9: for every input sequence whose readings of parameter `p` are exactly
two readings with different timestamps - in either order - the aggregation
selects the reading with the maximum timestamp. -/
theorem c9_aggregate_latest_wins (rs : List Reading) (p : String) (r₁ r₂ : Reading)
    (hperm : (rs.filter (fun r => r.parameter == p)).Perm [r₁, r₂])
    (hlt : r₁.datetime_utc < r₂.datetime_utc) :
    aggregate rs p = some r₂ := by
  unfold aggregate
  have hps : ((sortByTime rs).filter (fun r => r.parameter == p)).Perm [r₁, r₂] :=
    ((List.perm_insertionSort timeLe rs).filter _).trans hperm
  have hsorted : List.Sorted timeLe ((sortByTime rs).filter (fun r => r.parameter == p)) :=
    List.Pairwise.filter _ (List.sorted_insertionSort timeLe rs)
  revert hps hsorted
  cases hl : (sortByTime rs).filter (fun r => r.parameter == p) with
  | nil => intro hps _; exact absurd hps.length_eq (by simp)
  | cons a t =>
    cases t with
    | nil => intro hps _; exact absurd hps.length_eq (by simp)
    | cons b t2 =>
      cases t2 with
      | cons c t3 => intro hps _; exact absurd hps.length_eq (by simp)
      | nil =>
        intro hps hsorted
        have hab : timeLe a b := ((List.sorted_cons.mp hsorted).1) b (List.mem_cons_self b [])
        rcases perm_pair_cases hps with ⟨ha, hb⟩ | ⟨ha, hb⟩
        · rw [ha, hb]
          rfl
        · rw [ha, hb] at hab
          exact absurd hab (by simp only [timeLe]; omega)

end Air

namespace Air

lemma tableClamp (bks : List Bkpt) (v : ℚ) (b : Bkpt)
    (hlast : bks.getLast? = some b)
    (hlow : ∀ x ∈ bks, 0 ≤ x.cLow) (hhigh : ∀ x ∈ bks, x.cHigh ≤ b.cHigh)
    (hout : v < 0 ∨ b.cHigh < v) :
    tableSubindex bks v = b.iHigh := by
  have hscan : scanBands bks v = none := by
    rcases hout with h | h
    · exact scanBands_eq_none_of_neg v h bks hlow
    · exact scanBands_eq_none_of_gt v b.cHigh h bks hhigh
  simp only [tableSubindex, hscan, lastIndexHigh, hlast]

/-- C6: for a parameter with a breakpoint table, a normalized value matching
no band - strictly below each non-final upper bound fails, at or below the
final upper bound fails - yields the index-high of the table's last band
(the clamp of line 135); the function is total, so no exception can occur. -/
theorem c6_outside_bands_clamped (p : String) (bks : List Bkpt) (v : ℚ) (b : Bkpt)
    (hp : breakpoints p = some bks)
    (hout : outsideAllBands bks (normalizedValue p v))
    (hlast : bks.getLast? = some b) :
    calculate_aqi_subindex v p = b.iHigh :=
  subindex_fallback v p bks b hp (scanBands_eq_none_of_outside _ bks hout) hlast

/-- C6 witness: the negative PM2.5 value -1 is outside all bands and the
sub-index computation clamps it to 500. -/
theorem c6_witness :
    outsideAllBands pm25Table (normalizedValue "PM2.5" (-1)) ∧
    calculate_aqi_subindex (-1) "PM2.5" = 500 := by
  have hout : outsideAllBands pm25Table (normalizedValue "PM2.5" (-1)) := by
    rw [normalized_pm25]
    simp only [pm25Table, outsideAllBands]
    norm_num
  exact ⟨hout,
    c6_outside_bands_clamped "PM2.5" pm25Table (-1) ⟨350.5, 500.4, 401, 500⟩
      breakpoints_pm25 hout rfl⟩

end Air

namespace Air

/-- C7 counterexample: the negative PM2.5 value -1 is clamped to 500, the
index-high of the LAST band, not to 0, the index at the table's lowest
defined bound as the claim states. -/
theorem c7_counterexample :
    calculate_aqi_subindex (-1) "PM2.5" = 500 ∧ calculate_aqi_subindex (-1) "PM2.5" ≠ 0 := by
  have hlow : ∀ x ∈ pm25Table, 0 ≤ x.cLow := by
    intro x hx
    simp only [pm25Table] at hx
    fin_cases hx <;> norm_num
  have hscan : scanBands pm25Table (normalizedValue "PM2.5" (-1)) = none := by
    rw [normalized_pm25]
    exact scanBands_eq_none_of_neg (-1) (by norm_num) pm25Table hlow
  have h500 : calculate_aqi_subindex (-1) "PM2.5" = 500 :=
    subindex_fallback (-1) "PM2.5" pm25Table ⟨350.5, 500.4, 401, 500⟩
      breakpoints_pm25 hscan rfl
  exact ⟨h500, by rw [h500]; norm_num⟩

/-- C7 amended: a parameter value whose normalized form is out of domain on
either side - negative, or above the last band's upper concentration bound -
is clamped to the index-high of the table's last band. -/
theorem c7_amended_clamp (p : String) (bks : List Bkpt) (v : ℚ) (b : Bkpt)
    (hp : breakpoints p = some bks)
    (hlast : bks.getLast? = some b)
    (hout : normalizedValue p v < 0 ∨ b.cHigh < normalizedValue p v) :
    calculate_aqi_subindex v p = b.iHigh := by
  rw [subindex_table _ _ _ hp]
  refine tableClamp bks _ b hlast ?_ ?_ hout <;>
  · intro x hx
    by_cases h1 : p = "PM2.5"
    · subst h1
      rw [breakpoints_pm25] at hp
      cases Option.some.inj hp
      have hb : (⟨350.5, 500.4, 401, 500⟩ : Bkpt) = b := Option.some.inj hlast
      cases hb
      simp only [pm25Table] at hx
      fin_cases hx <;> norm_num
    by_cases h2 : p = "PM10"
    · subst h2
      rw [breakpoints_pm10] at hp
      cases Option.some.inj hp
      have hb : (⟨505, 604, 401, 500⟩ : Bkpt) = b := Option.some.inj hlast
      cases hb
      simp only [pm10Table] at hx
      fin_cases hx <;> norm_num
    by_cases h3 : p = "CO"
    · subst h3
      rw [breakpoints_co] at hp
      cases Option.some.inj hp
      have hb : (⟨40.5, 50.4, 401, 500⟩ : Bkpt) = b := Option.some.inj hlast
      cases hb
      simp only [coTable] at hx
      fin_cases hx <;> norm_num
    by_cases h4 : p = "O3"
    · subst h4
      rw [breakpoints_o3] at hp
      cases Option.some.inj hp
      have hb : (⟨106, 200, 201, 300⟩ : Bkpt) = b := Option.some.inj hlast
      cases hb
      simp only [o3Table] at hx
      fin_cases hx <;> norm_num
    by_cases h5 : p = "NO2"
    · subst h5
      rw [breakpoints_no2] at hp
      cases Option.some.inj hp
      have hb : (⟨1650, 2049, 401, 500⟩ : Bkpt) = b := Option.some.inj hlast
      cases hb
      simp only [no2Table] at hx
      fin_cases hx <;> norm_num
    by_cases h6 : p = "SO2"
    · subst h6
      rw [breakpoints_so2] at hp
      cases Option.some.inj hp
      have hb : (⟨805, 1004, 401, 500⟩ : Bkpt) = b := Option.some.inj hlast
      cases hb
      simp only [so2Table] at hx
      fin_cases hx <;> norm_num
    have hnone : breakpoints p = none := by
      unfold breakpoints
      rw [if_neg h1, if_neg h2, if_neg h3, if_neg h4, if_neg h5, if_neg h6]
    rw [hnone] at hp
    exact Option.noConfusion hp

/-- C7 amended witness: the PM2.5 value 600 lies above the last band and is
clamped to 500. -/
theorem c7_amended_witness : calculate_aqi_subindex 600 "PM2.5" = 500 :=
  c7_amended_clamp "PM2.5" pm25Table 600 ⟨350.5, 500.4, 401, 500⟩
    breakpoints_pm25 rfl (Or.inr (by rw [normalized_pm25]; norm_num))

end Air

namespace Air

lemma categoryMatches_get (v : ℤ) : categoryMatches v (get_aqi_category v).1 := by
  unfold get_aqi_category
  split_ifs with h1 h2 h3 h4 h5 <;> simp only [categoryMatches]
  · exact Or.inl ⟨trivial, h1⟩
  · exact Or.inr (Or.inl ⟨trivial, h2⟩)
  · exact Or.inr (Or.inr (Or.inl ⟨trivial, h3⟩))
  · exact Or.inr (Or.inr (Or.inr (Or.inl ⟨trivial, h4⟩)))
  · exact Or.inr (Or.inr (Or.inr (Or.inr (Or.inl ⟨trivial, h5⟩))))
  · exact Or.inr (Or.inr (Or.inr (Or.inr (Or.inr ⟨trivial, by omega⟩))))

lemma categoryMatches_unique (v : ℤ) (l1 l2 : String)
    (h1 : categoryMatches v l1) (h2 : categoryMatches v l2) : l1 = l2 := by
  unfold categoryMatches at h1 h2
  rcases h1 with ⟨e1, c1⟩ | ⟨e1, c1⟩ | ⟨e1, c1⟩ | ⟨e1, c1⟩ | ⟨e1, c1⟩ | ⟨e1, c1⟩ <;>
    rcases h2 with ⟨e2, c2⟩ | ⟨e2, c2⟩ | ⟨e2, c2⟩ | ⟨e2, c2⟩ | ⟨e2, c2⟩ | ⟨e2, c2⟩ <;>
    subst e1 <;> subst e2 <;> first | rfl | omega

/-- C8: the category guards are exhaustive and mutually exclusive - every
integer AQI from 0 to 1000 matches exactly one category, and the classifier
returns the matching one - with 50 Good, 51 Moderate, 150 Poor,
151 Unhealthy, 300 Severe, 301 Hazardous, and everything above 300
Hazardous with no upper bound. -/
theorem c8_categories :
    (∀ v : ℤ, 0 ≤ v → v ≤ 1000 → ∃! label, categoryMatches v label) ∧
    (∀ v : ℤ, categoryMatches v (get_aqi_category v).1) ∧
    (get_aqi_category 50).1 = "Good" ∧
    (get_aqi_category 51).1 = "Moderate" ∧
    (get_aqi_category 150).1 = "Poor" ∧
    (get_aqi_category 151).1 = "Unhealthy" ∧
    (get_aqi_category 300).1 = "Severe" ∧
    (get_aqi_category 301).1 = "Hazardous" ∧
    (∀ v : ℤ, 300 < v → (get_aqi_category v).1 = "Hazardous") := by
  refine ⟨?_, categoryMatches_get, rfl, rfl, rfl, rfl, rfl, rfl, ?_⟩
  · intro v _ _
    refine ⟨(get_aqi_category v).1, categoryMatches_get v, ?_⟩
    intro y hy
    exact categoryMatches_unique v y _ hy (categoryMatches_get v)
  · intro v hv
    unfold get_aqi_category
    split_ifs with h1 h2 h3 h4 h5
    · omega
    · omega
    · omega
    · omega
    · omega
    · rfl

/-- C8 witness: the AQI value 123 lies in 0..1000 and matches exactly one
category. -/
theorem c8_witness : ∃! label, categoryMatches 123 label :=
  c8_categories.1 123 (by omega) (by omega)

/-- C10: for every value and parameter string the sub-index is an integer
between 0 and 500; for O3 it never exceeds 300, so an O3 reading alone is
never classified "Hazardous". -/
theorem c10_subindex_range (v : ℚ) (p : String) :
    0 ≤ calculate_aqi_subindex v p ∧ calculate_aqi_subindex v p ≤ 500 ∧
    calculate_aqi_subindex v "O3" ≤ 300 ∧
    (get_aqi_category (calculate_aqi_subindex v "O3")).1 ≠ "Hazardous" := by
  obtain ⟨h1, h2⟩ := subindex_bounds v p
  have h3 := subindex_o3_le v
  refine ⟨h1, h2, h3, ?_⟩
  unfold get_aqi_category
  split_ifs <;>
    first
      | omega
      | (intro h; exact absurd h (by decide))

end Air

namespace Air

/-- C1: for every non-empty list of latest readings the resolver's overall
AQI is the maximum of the per-parameter sub-indices - a member of the
sub-index list bounding all of them, never an average - and on readings
whose sub-indices are 80 (PM2.5), 40 (NO2) and 150 (O3) it returns overall
AQI 150 with category "Poor". -/
theorem c1_resolve_is_max :
    (∀ rows : List Reading, rows ≠ [] →
      ∃ m, overall_aqi rows = some m ∧ m ∈ subindices rows ∧ ∀ s ∈ subindices rows, s ≤ m) ∧
    subindices [⟨"PM2.5", 26, 0⟩, ⟨"NO2", 42, 0⟩, ⟨"O3", 169.8, 0⟩] = [80, 40, 150] ∧
    resolve [⟨"PM2.5", 26, 0⟩, ⟨"NO2", 42, 0⟩, ⟨"O3", 169.8, 0⟩] =
      some (150, "Poor", "Breathing may become slightly uncomfortable, especially for those with respiratory issues.") := by
  have hsubs : subindices [⟨"PM2.5", 26, 0⟩, ⟨"NO2", 42, 0⟩, ⟨"O3", 169.8, 0⟩] = [80, 40, 150] := by
    simp only [subindices, List.map_cons, List.map_nil]
    rw [calc_pm25_26, calc_no2_42, calc_o3_1698]
  refine ⟨?_, hsubs, ?_⟩
  · intro rows hne
    have hsub : subindices rows ≠ [] := by
      simp only [subindices]
      exact fun h => hne (List.map_eq_nil_iff.mp h)
    cases h : (subindices rows).max? with
    | none => exact absurd (List.max?_eq_none_iff.mp h) hsub
    | some m =>
      obtain ⟨hmem, hub⟩ := int_max?_eq_some_iff.mp h
      exact ⟨m, h, hmem, hub⟩
  · unfold resolve overall_aqi
    rw [hsubs]
    rfl

/-- C1 witness: a concrete non-empty reading list on which the overall AQI
is a maximal member of the sub-index list. -/
theorem c1_witness :
    ∃ m, overall_aqi [⟨"PM2.5", 26, 0⟩] = some m ∧ m ∈ subindices [⟨"PM2.5", 26, 0⟩] ∧
      ∀ s ∈ subindices [⟨"PM2.5", 26, 0⟩], s ≤ m :=
  c1_resolve_is_max.1 _ (List.cons_ne_nil _ _)

/-- C2 (actual code behaviour at the claimed boundary): the PM2.5 value 12.0
matches no band, because band one is half-open at 12.0 and band two starts
at 12.1, so it falls through to the clamp and returns 500 rather than the
claimed 50; 12.1 returns 51 as claimed. -/
theorem c2_boundary_eval :
    calculate_aqi_subindex 12 "PM2.5" = 500 ∧ calculate_aqi_subindex 12.1 "PM2.5" = 51 :=
  ⟨calc_pm25_12, calc_pm25_121⟩

/-- C4 (actual code behaviour): normalization does divide CO 4400 down to
4.4, but 4.4 matches no CO band - band one is half-open at 4.4 and band two
starts at 4.5 - so the computation returns the clamp 500, not the claimed 50. -/
theorem c4_co_normalization :
    normalizedValue "CO" 4400 = 4.4 ∧ calculate_aqi_subindex 4400 "CO" = 500 := by
  refine ⟨?_, calc_co_4400⟩
  rw [normalized_co]
  norm_num

/-- C5 (actual code behaviour): the sub-index computation is not monotone on
PM2.5 - the value 12.0 yields 500 while the larger value 12.1 yields 51. -/
theorem c5_not_monotone :
    (12 : ℚ) ≤ 12.1 ∧
    calculate_aqi_subindex 12 "PM2.5" = 500 ∧
    calculate_aqi_subindex 12.1 "PM2.5" = 51 ∧
    ¬ calculate_aqi_subindex 12 "PM2.5" ≤ calculate_aqi_subindex 12.1 "PM2.5" := by
  refine ⟨by norm_num, calc_pm25_12, calc_pm25_121, ?_⟩
  rw [calc_pm25_12, calc_pm25_121]
  omega

/-- C9 witness: of two PM2.5 readings with timestamps 3 and 5, given with the
later one first in the input, aggregation keeps the one with timestamp 5. -/
theorem c9_witness :
    aggregate [⟨"PM2.5", 10, 5⟩, ⟨"PM2.5", 20, 3⟩] "PM2.5" = some ⟨"PM2.5", 10, 5⟩ :=
  c9_aggregate_latest_wins [⟨"PM2.5", 10, 5⟩, ⟨"PM2.5", 20, 3⟩] "PM2.5"
    ⟨"PM2.5", 20, 3⟩ ⟨"PM2.5", 10, 5⟩ (List.Perm.swap _ _ _) (by decide)

end Air

namespace Air

/-- C3 counterexample: a reading set containing only the table-less
parameter "Relative Humidity" still contributes a sub-index - the sentinel
0 - so the sub-index list is [0], the overall AQI is 0, and the resolver
does not take its no-data path. -/
theorem c3_counterexample :
    subindices [⟨"Relative Humidity", 55, 0⟩] = [0] ∧
    overall_aqi [⟨"Relative Humidity", 55, 0⟩] = some 0 ∧
    resolve [⟨"Relative Humidity", 55, 0⟩] ≠ none := by
  refine ⟨rfl, rfl, ?_⟩
  intro h
  exact Option.noConfusion h

/-- C3 amended: a table-less parameter contributes the sentinel sub-index 0
rather than being absent; since every sub-index is nonnegative, the overall
AQI still equals the maximum over the parameters that have tables whenever
at least one such parameter is present, and a reading set of only
table-less parameters yields overall AQI 0, not an empty sub-index set. -/
theorem c3_amended :
    (∀ rows : List Reading,
      (∃ r ∈ rows, (breakpoints r.parameter).isSome) →
      overall_aqi rows =
        overall_aqi (rows.filter (fun r => (breakpoints r.parameter).isSome))) ∧
    (∀ (v : ℚ) (p : String) (t : ℕ), breakpoints p = none →
      subindices [⟨p, v, t⟩] = [0]) ∧
    (∀ rows : List Reading, rows ≠ [] → (∀ r ∈ rows, breakpoints r.parameter = none) →
      overall_aqi rows = some 0) := by
  refine ⟨?_, ?_, ?_⟩
  · intro rows hex
    obtain ⟨r0, hr0mem, hr0⟩ := hex
    unfold overall_aqi
    have hr0f : r0 ∈ rows.filter (fun r => (breakpoints r.parameter).isSome) :=
      List.mem_filter.mpr ⟨hr0mem, hr0⟩
    have hFne : subindices (rows.filter (fun r => (breakpoints r.parameter).isSome)) ≠ [] := by
      simp only [subindices]
      intro h
      rw [List.map_eq_nil_iff] at h
      rw [h] at hr0f
      exact List.not_mem_nil r0 hr0f
    cases hF : (subindices (rows.filter (fun r => (breakpoints r.parameter).isSome))).max? with
    | none => exact absurd (List.max?_eq_none_iff.mp hF) hFne
    | some m =>
      obtain ⟨hmem, hub⟩ := int_max?_eq_some_iff.mp hF
      have hm0 : 0 ≤ m := by
        obtain ⟨r', _, hr'⟩ := List.mem_map.mp hmem
        rw [← hr']
        exact subindex_nonneg r'.value r'.parameter
      apply int_max?_eq_some_iff.mpr
      constructor
      · obtain ⟨r', hr'f, hr'⟩ := List.mem_map.mp hmem
        exact List.mem_map.mpr ⟨r', List.mem_of_mem_filter hr'f, hr'⟩
      · intro s hs
        obtain ⟨r, hrmem, hr⟩ := List.mem_map.mp hs
        by_cases ht : (breakpoints r.parameter).isSome
        · refine hub s ?_
          exact List.mem_map.mpr ⟨r, List.mem_filter.mpr ⟨hrmem, ht⟩, hr⟩
        · have hnone : breakpoints r.parameter = none := Option.not_isSome_iff_eq_none.mp ht
          rw [← hr, subindex_no_table _ _ hnone]
          exact hm0
  · intro v p t hnone
    simp only [subindices, List.map_cons, List.map_nil]
    rw [subindex_no_table _ _ hnone]
  · intro rows hne hall
    unfold overall_aqi
    apply int_max?_eq_some_iff.mpr
    constructor
    · cases rows with
      | nil => exact absurd rfl hne
      | cons r rest =>
        have h0 : calculate_aqi_subindex r.value r.parameter = 0 :=
          subindex_no_table _ _ (hall r (List.mem_cons_self r rest))
        exact List.mem_map.mpr ⟨r, List.mem_cons_self r rest, h0⟩
    · intro s hs
      obtain ⟨r, hrmem, hr⟩ := List.mem_map.mp hs
      rw [← hr, subindex_no_table _ _ (hall r hrmem)]

/-- C3 witness: on a set with one tabled (PM2.5) and one table-less
(Relative Humidity) reading, the overall AQI equals the overall AQI of the
tabled readings alone. -/
theorem c3_witness :
    overall_aqi [⟨"PM2.5", 26, 0⟩, ⟨"Relative Humidity", 55, 0⟩] =
      overall_aqi (([⟨"PM2.5", 26, 0⟩, ⟨"Relative Humidity", 55, 0⟩] : List Reading).filter
        (fun r => (breakpoints r.parameter).isSome)) :=
  c3_amended.1 _ ⟨⟨"PM2.5", 26, 0⟩, List.mem_cons_self _ _, by decide⟩

end Air
